import Mathlib

set_option maxHeartbeats 1000000

/-! Shallow embedding of the viz-my-xls core: the ingestion normalizer
(processExcelFile's row transformation) and the aggregation engine
(StatsCards, DataVisualization, DataTable.sortedData).
JavaScript numbers are modelled as integers (cell scalars) and exact
rationals (averages and percentages); number formatting to one decimal
place is modelled by the rounding function jsRound1. -/

/-- Scalar cell values as produced by spreadsheet parsing: strings or
numbers (numeric cells modelled as integers). -/
inductive JVal where
  | jstr : String → JVal
  | jnum : Int → JVal
deriving DecidableEq

open JVal

/-- One raw spreadsheet row: an association list from column names to cell
values, with the first binding of a key the authoritative one. -/
abbrev RawRow := List (String × JVal)

/-- Property access row[k]: the value bound to column k, if present. -/
def rowGet (row : RawRow) (k : String) : Option JVal :=
  (row.find? (fun p => decide (p.1 = k))).map (fun p => p.2)

/-- JavaScript truthiness of a cell value: empty strings and zero are falsy. -/
def truthy : JVal → Bool
  | jstr s => s != ""
  | jnum n => n != 0

/-- The a || b || ... || d fallback chain: first present, truthy value,
else the final default. -/
def chain (vs : List (Option JVal)) (dflt : JVal) : JVal :=
  match vs with
  | [] => dflt
  | none :: rest => chain rest dflt
  | some v :: rest => if truthy v then v else chain rest dflt

/-- Numeric value of a list of decimal digit characters. -/
def digitsVal (cs : List Char) : Nat :=
  cs.foldl (fun a c => a * 10 + (c.toNat - 48)) 0

/-- Parse a leading run of decimal digits; none when there is no digit. -/
def parseNatDigits (cs : List Char) : Option Nat :=
  let digs := cs.takeWhile Char.isDigit
  if digs.isEmpty then none else some (digitsVal digs)

/-- The permissive integer parse parseInt(s): skip leading whitespace,
optional sign, then a longest run of decimal digits; none models NaN. -/
def parseIntStr (s : String) : Option Int :=
  let cs := s.data.dropWhile (fun c => c == ' ' || c == '\t' || c == '\n' || c == '\r')
  match cs with
  | '-' :: rest => (parseNatDigits rest).map (fun n => -(n : Int))
  | '+' :: rest => (parseNatDigits rest).map (fun n => (n : Int))
  | _ => (parseNatDigits cs).map (fun n => (n : Int))

/-- parseInt applied to a cell value (a number is stringified first, which
for an integer is the identity). -/
def parseIntJS : JVal → Option Int
  | jnum n => some n
  | jstr s => parseIntStr s

/-- country resolution: row.Pays || row.Country || row.country || "Pays " ++ index. -/
def countryOf (idx : Nat) (row : RawRow) : JVal :=
  chain [rowGet row "Pays", rowGet row "Country", rowGet row "country"]
    (jstr ("Pays " ++ toString idx))

/-- region resolution: row.Region || row.region || the unspecified sentinel. -/
def regionOf (row : RawRow) : JVal :=
  chain [rowGet row "Region", rowGet row "region"] (jstr "Non spécifiée")

/-- The value handed to parseInt for the year column (the default is the
current calendar year, supplied as a parameter). -/
def yearRawOf (currentYear : Int) (row : RawRow) : JVal :=
  chain [rowGet row "Année", rowGet row "Year", rowGet row "year"] (jnum currentYear)

/-- Parsed year with the isNaN fallback to the current year. -/
def yearOf (currentYear : Int) (row : RawRow) : Int :=
  (parseIntJS (yearRawOf currentYear row)).getD currentYear

/-- status resolution: row.Status || row.status || the unspecified sentinel. -/
def statusOf (row : RawRow) : JVal :=
  chain [rowGet row "Status", rowGet row "status"] (jstr "Non spécifié")

/-- The value handed to parseInt for the political-rights column. -/
def prRawOf (row : RawRow) : JVal :=
  chain [rowGet row "Droits politiques", rowGet row "Political Rights",
    rowGet row "politicalRights"] (jnum 0)

/-- Parsed politicalRights with the isNaN fallback to 0. -/
def prOf (row : RawRow) : Int := (parseIntJS (prRawOf row)).getD 0

/-- The value handed to parseInt for the civil-liberties column. -/
def clRawOf (row : RawRow) : JVal :=
  chain [rowGet row "Libertés civiles", rowGet row "Civil Liberties",
    rowGet row "civilLiberties"] (jnum 0)

/-- Parsed civilLiberties with the isNaN fallback to 0. -/
def clOf (row : RawRow) : Int := (parseIntJS (clRawOf row)).getD 0

/-- The normalized record built for one raw row. Because the object
literal ends with the spread of the raw row, every canonical field is of
loosely typed cell shape: a source column with the same name overwrites
the computed value. -/
structure RawFreedomData where
  country : JVal
  region : JVal
  year : JVal
  status : JVal
  politicalRights : JVal
  civilLiberties : JVal
  totalScore : JVal
  extra : List (String × JVal)
deriving DecidableEq

/-- Effect of the trailing spread of the raw row on one canonical field:
the raw column value wins when the column is present. -/
def ovr (row : RawRow) (k : String) (computed : JVal) : JVal :=
  match rowGet row k with
  | some v => v
  | none => computed

/-- The per-row transformation inside processExcelFile: resolve each
canonical field through its synonym chain, derive totalScore, then spread
the original row over the object literal. -/
def transformRow (currentYear : Int) (idx : Nat) (row : RawRow) : RawFreedomData :=
  { country := ovr row "country" (countryOf idx row)
    region := ovr row "region" (regionOf row)
    year := ovr row "year" (jnum (yearOf currentYear row))
    status := ovr row "status" (statusOf row)
    politicalRights := ovr row "politicalRights" (jnum (prOf row))
    civilLiberties := ovr row "civilLiberties" (jnum (clOf row))
    totalScore := ovr row "totalScore" (jnum (prOf row + clOf row))
    extra := row }

/-- jsonData.map((row, index) => ...): one record per raw row, in order. -/
def transformData (currentYear : Int) (rows : List RawRow) : List RawFreedomData :=
  rows.enum.map (fun p => transformRow currentYear p.1 p.2)

/-! Aggregation engine. The dashboard components consume records through
the typed FreedomData interface declared in Dashboard.tsx. -/

/-- The typed record shape of the Dashboard interface (passthrough extras
are irrelevant to aggregation and omitted here). -/
structure FreedomData where
  country : String
  region : String
  year : Int
  status : String
  politicalRights : Int
  civilLiberties : Int
  totalScore : Int
deriving DecidableEq

/-- One-decimal formatting of a number, as toFixed(1) produces: the
nearest multiple of one tenth, a tie going to the larger value. -/
def jsRound1 (x : ℚ) : ℚ := (⌊10 * x + 1 / 2⌋ : ℚ) / 10

/-- Duplicate removal keeping the first occurrence of each element, as a
plain-object accumulator enumerates its keys. -/
def jsDedup {α : Type} [DecidableEq α] (l : List α) : List α :=
  l.foldl (fun acc a => if a ∈ acc then acc else acc ++ [a]) []

/-- Occurrences of a value in a list. -/
def cnt {α : Type} [DecidableEq α] (a : α) (l : List α) : Nat :=
  (l.filter (fun b => decide (b = a))).length

/-- Insert into a sorted list, keeping earlier elements first on ties. -/
def insertBy {α : Type} (le : α → α → Bool) (a : α) : List α → List α
  | [] => [a]
  | b :: t => if le a b then a :: b :: t else b :: insertBy le a t

/-- Stable insertion sort used to model Array.prototype.sort. -/
def insertionSortBy {α : Type} (le : α → α → Bool) : List α → List α
  | [] => []
  | a :: t => insertBy le a (insertionSortBy le t)

/-- Count of records with the exact status "Libre". -/
def freeCountries (data : List FreedomData) : Nat :=
  (data.filter (fun d => decide (d.status = "Libre"))).length

/-- Count of records with the exact status "Partiellement libre". -/
def partiallyFreeCountries (data : List FreedomData) : Nat :=
  (data.filter (fun d => decide (d.status = "Partiellement libre"))).length

/-- Count of records with the exact status "Pas libre". -/
def notFreeCountries (data : List FreedomData) : Nat :=
  (data.filter (fun d => decide (d.status = "Pas libre"))).length

/-- The value (freeCountries / totalCountries) * 100 before formatting. -/
def freePercentageExact (data : List FreedomData) : ℚ :=
  ((freeCountries data : ℚ) / (data.length : ℚ)) * 100

/-- The value (partiallyFreeCountries / totalCountries) * 100 before formatting. -/
def partiallyFreePercentageExact (data : List FreedomData) : ℚ :=
  ((partiallyFreeCountries data : ℚ) / (data.length : ℚ)) * 100

/-- The value (notFreeCountries / totalCountries) * 100 before formatting. -/
def notFreePercentageExact (data : List FreedomData) : ℚ :=
  ((notFreeCountries data : ℚ) / (data.length : ℚ)) * 100

/-- The headline free percentage as displayed, after toFixed(1). -/
def freePercentage (data : List FreedomData) : ℚ :=
  jsRound1 (freePercentageExact data)

/-- The headline partly-free percentage as displayed, after toFixed(1). -/
def partiallyFreePercentage (data : List FreedomData) : ℚ :=
  jsRound1 (partiallyFreePercentageExact data)

/-- The headline not-free percentage as displayed, after toFixed(1). -/
def notFreePercentage (data : List FreedomData) : ℚ :=
  jsRound1 (notFreePercentageExact data)

/-- Decimal string of an integer, as String(n) produces. -/
def intChars (i : Int) : List Char := (toString i).data

/-- Code-unit lexicographic comparison of strings, the order used by
Array.prototype.sort when no comparator is supplied. -/
def lexLtChars : List Char → List Char → Bool
  | _, [] => false
  | [], _ :: _ => true
  | a :: as, b :: bs =>
    if a.val < b.val then true
    else if b.val < a.val then false
    else lexLtChars as bs

/-- The order Object.keys(yearlyData).map(Number).sort() sorts years by:
lexicographic on their decimal string forms, not numeric. -/
def jsNumLe (a b : Int) : Bool := !(lexLtChars (intChars b) (intChars a))

/-- The sorted year list the trend computation indexes into. -/
def jsYears (data : List FreedomData) : List Int :=
  insertionSortBy jsNumLe (jsDedup (data.map (·.year)))

/-- Average totalScore of the records whose year is y (the per-year
accumulated sum divided by the per-year count). -/
def yearScoreAvg (y : Int) (data : List FreedomData) : ℚ :=
  (((data.filter (fun d => decide (d.year = y))).map (·.totalScore)).sum : ℚ) /
    ((data.filter (fun d => decide (d.year = y))).length : ℚ)

/-- Trend classification of StatsCards: compares the average totalScore
of the last listed year against the first listed year plus or minus 0.5;
with at most one distinct year it stays "stable". -/
def trend (data : List FreedomData) : String :=
  let ys := jsYears data
  if ys.length ≤ 1 then "stable"
  else
    let firstAvg := yearScoreAvg (ys.headD 0) data
    let lastAvg := yearScoreAvg (ys.getLastD 0) data
    if firstAvg + 1 / 2 < lastAvg then "improving"
    else if lastAvg < firstAvg - 1 / 2 then "declining"
    else "stable"

/-- One slice of the status-distribution pie: a status value, its record
count, and its displayed percentage. -/
structure StatusEntry where
  name : String
  value : Nat
  percentage : ℚ
deriving DecidableEq

/-- Status distribution of DataVisualization: one entry per distinct
status in first-occurrence order, with count and one-decimal percentage
of the whole collection. -/
def statusDistribution (data : List FreedomData) : List StatusEntry :=
  (jsDedup (data.map (·.status))).map (fun s =>
    { name := s
      value := cnt s (data.map (·.status))
      percentage := jsRound1 ((cnt s (data.map (·.status)) : ℚ) / (data.length : ℚ) * 100) })

/-- One bar of the region charts. -/
structure RegionEntry where
  name : String
  fullName : String
  count : Nat
  avgPolitical : ℚ
  avgCivil : ℚ
deriving DecidableEq

/-- Display truncation of long region names. -/
def truncName (s : String) : String :=
  if 15 < s.length then s.take 15 ++ "..." else s

/-- The chart entry built for one distinct region. -/
def regionEntry (data : List FreedomData) (name : String) : RegionEntry :=
  let recs := data.filter (fun d => decide (d.region = name))
  { name := truncName name
    fullName := name
    count := recs.length
    avgPolitical := ((recs.map (·.politicalRights)).sum : ℚ) / (recs.length : ℚ)
    avgCivil := ((recs.map (·.civilLiberties)).sum : ℚ) / (recs.length : ℚ) }

/-- Region distribution of DataVisualization: one entry per distinct
region, sorted descending by count, truncated to the top ten. -/
def regionDistribution (data : List FreedomData) : List RegionEntry :=
  (insertionSortBy (fun a b => decide (b.count ≤ a.count))
    ((jsDedup (data.map (·.region))).map (regionEntry data))).take 10

/-- Per-year accumulator of the yearlyTrends reduce. The avgPolitical and
avgCivil fields hold running sums until the final map divides them. -/
structure YearAcc where
  year : Int
  totalCountries : Nat
  avgPolitical : Int
  avgCivil : Int
  libre : Nat
  partLibre : Nat
  pasLibre : Nat
deriving DecidableEq

/-- Fresh accumulator for a year seen for the first time. -/
def initYear (y : Int) : YearAcc := ⟨y, 0, 0, 0, 0, 0, 0⟩

/-- The increments one record applies to its year accumulator; the final
else-branch counts every status other than the two named ones. -/
def bumpYear (item : FreedomData) (a : YearAcc) : YearAcc :=
  { a with
    totalCountries := a.totalCountries + 1
    avgPolitical := a.avgPolitical + item.politicalRights
    avgCivil := a.avgCivil + item.civilLiberties
    libre := a.libre + (if item.status = "Libre" then 1 else 0)
    partLibre := a.partLibre +
      (if ¬(item.status = "Libre") ∧ item.status = "Partiellement libre" then 1 else 0)
    pasLibre := a.pasLibre +
      (if ¬(item.status = "Libre") ∧ ¬(item.status = "Partiellement libre") then 1 else 0) }

/-- One step of the yearlyTrends reduce: bump the existing accumulator of
the record's year, or append a fresh one. -/
def yearStep (acc : List YearAcc) (item : FreedomData) : List YearAcc :=
  if acc.any (fun a => decide (a.year = item.year)) then
    acc.map (fun a => if a.year = item.year then bumpYear item a else a)
  else
    acc ++ [bumpYear item (initYear item.year)]

/-- The reduce of yearlyTrends over the whole collection. -/
def yearFold (data : List FreedomData) : List YearAcc :=
  data.foldl yearStep []

/-- One point of the yearly trend line chart. -/
structure YearEntry where
  year : Int
  totalCountries : Nat
  avgPolitical : ℚ
  avgCivil : ℚ
  libre : Nat
  partLibre : Nat
  pasLibre : Nat
deriving DecidableEq

/-- Final per-year map of yearlyTrends: divide the running sums by the
count and format to one decimal. -/
def finishYear (a : YearAcc) : YearEntry :=
  { year := a.year
    totalCountries := a.totalCountries
    avgPolitical := jsRound1 ((a.avgPolitical : ℚ) / (a.totalCountries : ℚ))
    avgCivil := jsRound1 ((a.avgCivil : ℚ) / (a.totalCountries : ℚ))
    libre := a.libre
    partLibre := a.partLibre
    pasLibre := a.pasLibre }

/-- Numeric order as a Bool relation, for the year-keyed sorts that do
use a numeric comparator. -/
def intLe (a b : Int) : Bool := decide (a ≤ b)

/-- yearlyTrends of DataVisualization: reduce into per-year accumulators,
finish each, and sort ascending by year with a numeric comparator. -/
def yearlyTrends (data : List FreedomData) : List YearEntry :=
  insertionSortBy (fun a b => intLe a.year b.year) ((yearFold data).map finishYear)

/-- The yearly series described pointwise: the entry of one year, every
field obtained by filtering the collection on that year. -/
def yearEntryOf (data : List FreedomData) (y : Int) : YearEntry :=
  let recs := data.filter (fun d => decide (d.year = y))
  { year := y
    totalCountries := recs.length
    avgPolitical := jsRound1 (((recs.map (·.politicalRights)).sum : ℚ) / (recs.length : ℚ))
    avgCivil := jsRound1 (((recs.map (·.civilLiberties)).sum : ℚ) / (recs.length : ℚ))
    libre := (recs.filter (fun d => decide (d.status = "Libre"))).length
    partLibre := (recs.filter (fun d => decide (d.status = "Partiellement libre"))).length
    pasLibre := (recs.filter (fun d =>
      decide (¬(d.status = "Libre") ∧ ¬(d.status = "Partiellement libre")))).length }

/-- Specification-side form of the yearly series (the amended wording):
one entry per distinct year, in ascending numeric year order, each field
a filter-based aggregate of that year's records, the third status bucket
catching every status other than the two named ones. -/
def specYearlySeries (data : List FreedomData) : List YearEntry :=
  (insertionSortBy intLe (jsDedup (data.map (·.year)))).map (yearEntryOf data)

/-- The view model StatsCards renders. -/
structure Stats where
  totalCountries : Nat
  freeCountries : Nat
  partiallyFreeCountries : Nat
  notFreeCountries : Nat
  avgPoliticalRights : ℚ
  avgCivilLiberties : ℚ
  avgTotalScore : ℚ
  uniqueRegions : Nat
  uniqueYears : Nat
  trend : String
  freePercentage : ℚ
  partiallyFreePercentage : ℚ
  notFreePercentage : ℚ
deriving DecidableEq

/-- The stats memo of StatsCards: none on an empty collection, otherwise
counts, one-decimal averages and percentages, distinct-value counts and
the trend classification. -/
def stats (data : List FreedomData) : Option Stats :=
  if data.length = 0 then none
  else some
    { totalCountries := data.length
      freeCountries := freeCountries data
      partiallyFreeCountries := partiallyFreeCountries data
      notFreeCountries := notFreeCountries data
      avgPoliticalRights := jsRound1 (((data.map (·.politicalRights)).sum : ℚ) / (data.length : ℚ))
      avgCivilLiberties := jsRound1 (((data.map (·.civilLiberties)).sum : ℚ) / (data.length : ℚ))
      avgTotalScore := jsRound1 (((data.map (·.totalScore)).sum : ℚ) / (data.length : ℚ))
      uniqueRegions := (jsDedup (data.map (·.region))).length
      uniqueYears := (jsDedup (data.map (·.year))).length
      trend := trend data
      freePercentage := freePercentage data
      partiallyFreePercentage := partiallyFreePercentage data
      notFreePercentage := notFreePercentage data }

/-- The sortable columns of the data table. -/
inductive SortCol where
  | country
  | region
  | year
  | status
  | politicalRights
  | civilLiberties
  | totalScore
deriving DecidableEq

/-- Sort direction of the data table. -/
inductive SortDir where
  | asc
  | desc
deriving DecidableEq

/-- The field a sort column selects on a record. -/
def colVal (c : SortCol) (d : FreedomData) : JVal :=
  match c with
  | .country => jstr d.country
  | .region => jstr d.region
  | .year => jnum d.year
  | .status => jstr d.status
  | .politicalRights => jnum d.politicalRights
  | .civilLiberties => jnum d.civilLiberties
  | .totalScore => jnum d.totalScore

/-- String(v).toLowerCase() of a cell value, as character codes. -/
def jvalToChars : JVal → List Char
  | jstr s => s.toLower.data
  | jnum n => (toString n).toLower.data

/-- The table comparator as a before-or-equal relation: numbers compare
by subtraction, everything else by lowercased string comparison; desc
swaps the operands. -/
def rowLe (c : SortCol) (dir : SortDir) (a b : FreedomData) : Bool :=
  match colVal c a, colVal c b with
  | jnum x, jnum y =>
    match dir with
    | .asc => decide (x ≤ y)
    | .desc => decide (y ≤ x)
  | va, vb =>
    match dir with
    | .asc => !(lexLtChars (jvalToChars vb) (jvalToChars va))
    | .desc => !(lexLtChars (jvalToChars va) (jvalToChars vb))

/-- sortedData of DataTable: the collection itself when no sort column is
active, otherwise a sort of a copy under the column comparator. -/
def sortedData (col : Option SortCol) (dir : SortDir) (data : List FreedomData) : List FreedomData :=
  match col with
  | none => data
  | some c => insertionSortBy (rowLe c dir) data

/-- Per-year aggregates described by filtering: the accumulator value the
yearlyTrends reduce is expected to reach for one year. -/
def yearAccOf (data : List FreedomData) (y : Int) : YearAcc :=
  let recs := data.filter (fun d => decide (d.year = y))
  { year := y
    totalCountries := recs.length
    avgPolitical := (recs.map (·.politicalRights)).sum
    avgCivil := (recs.map (·.civilLiberties)).sum
    libre := (recs.filter (fun d => decide (d.status = "Libre"))).length
    partLibre := (recs.filter (fun d =>
      decide (¬(d.status = "Libre") ∧ d.status = "Partiellement libre"))).length
    pasLibre := (recs.filter (fun d =>
      decide (¬(d.status = "Libre") ∧ ¬(d.status = "Partiellement libre")))).length }

/-- Whether a record's status is one of the three canonical labels. -/
def isCanonical (d : FreedomData) : Bool :=
  decide (d.status = "Libre") || decide (d.status = "Partiellement libre") ||
    decide (d.status = "Pas libre")

/-- A two-record collection whose years, 9 and 10, have decimal strings
that the default sort orders contrary to their numeric order. -/
def dTrend : List FreedomData :=
  [⟨"A", "R", 9, "Libre", 0, 0, 0⟩, ⟨"B", "R", 10, "Libre", 5, 5, 10⟩]

/-- Seven records, all of canonical status, two free, two partly free,
three not free. -/
def dHeadline : List FreedomData :=
  [⟨"A", "R", 2020, "Libre", 1, 1, 2⟩, ⟨"B", "R", 2020, "Libre", 1, 1, 2⟩,
   ⟨"C", "R", 2020, "Partiellement libre", 1, 1, 2⟩,
   ⟨"D", "R", 2020, "Partiellement libre", 1, 1, 2⟩,
   ⟨"E", "R", 2020, "Pas libre", 1, 1, 2⟩, ⟨"F", "R", 2020, "Pas libre", 1, 1, 2⟩,
   ⟨"G", "R", 2020, "Pas libre", 1, 1, 2⟩]

/-- Sixteen records over five distinct statuses: four held by one record
each (6.25 percent, displayed as 6.3) and one held by twelve. -/
def dStatus : List FreedomData :=
  [⟨"A", "R", 2020, "SA", 1, 1, 2⟩, ⟨"B", "R", 2020, "SB", 1, 1, 2⟩,
   ⟨"C", "R", 2020, "SC", 1, 1, 2⟩, ⟨"D", "R", 2020, "SD", 1, 1, 2⟩] ++
    List.replicate 12 ⟨"E", "R", 2020, "SE", 1, 1, 2⟩

/-- A single record with a status outside the three canonical labels. -/
def dOther : List FreedomData := [⟨"X", "R", 2020, "Spécial", 1, 2, 3⟩]

/-- Two records of the same year, one of non-canonical status, with
political-rights values 1 and 3 (sum 4, average 2). -/
def dYear : List FreedomData :=
  [⟨"X", "R", 2020, "Spécial", 1, 2, 3⟩, ⟨"Y", "R", 2020, "Libre", 3, 4, 7⟩]

/-- The raw row of the spec's scenario test. -/
def rowUtopia : RawRow :=
  [("Pays", jstr "Utopia"), ("Année", jstr "2020"),
   ("Droits politiques", jstr "7"), ("Libertés civiles", jstr "6")]

/-- Whether a column is present in a row with a truthy value, the
condition under which a fallback chain stops at it. -/
def presentTruthy (row : RawRow) (k : String) : Bool :=
  match rowGet row k with
  | some v => truthy v
  | none => false

/-! General lemmas about the sorting, deduplication, counting and
rounding building blocks. -/

theorem insertBy_perm {α : Type} (le : α → α → Bool) (a : α) (l : List α) :
    (insertBy le a l).Perm (a :: l) := by
  induction l with
  | nil => simp [insertBy]
  | cons b t ih =>
    simp only [insertBy]
    split
    · exact List.Perm.refl _
    · exact (ih.cons b).trans (List.Perm.swap a b t)

theorem insertionSortBy_perm {α : Type} (le : α → α → Bool) (l : List α) :
    (insertionSortBy le l).Perm l := by
  induction l with
  | nil => exact List.Perm.refl _
  | cons a t ih => exact (insertBy_perm le a _).trans (ih.cons a)

theorem insertionSortBy_length {α : Type} (le : α → α → Bool) (l : List α) :
    (insertionSortBy le l).length = l.length :=
  (insertionSortBy_perm le l).length_eq

theorem jsDedup_append_singleton {α : Type} [DecidableEq α] (l : List α) (a : α) :
    jsDedup (l ++ [a]) = if a ∈ jsDedup l then jsDedup l else jsDedup l ++ [a] := by
  simp [jsDedup, List.foldl_append]

theorem mem_jsDedup {α : Type} [DecidableEq α] (l : List α) (x : α) :
    x ∈ jsDedup l ↔ x ∈ l := by
  induction l using List.reverseRecOn with
  | nil => simp [jsDedup]
  | append_singleton t a ih =>
    rw [jsDedup_append_singleton]
    by_cases h : a ∈ jsDedup t
    · simp only [if_pos h]
      rw [ih]
      constructor
      · intro hx; exact List.mem_append.mpr (Or.inl hx)
      · intro hx
        rcases List.mem_append.mp hx with h1 | h1
        · exact h1
        · simp only [List.mem_singleton] at h1
          subst h1
          exact ih.mp h
    · simp only [if_neg h]
      simp [ih]

theorem nodup_jsDedup {α : Type} [DecidableEq α] (l : List α) :
    (jsDedup l).Nodup := by
  induction l using List.reverseRecOn with
  | nil => simp [jsDedup]
  | append_singleton t a ih =>
    rw [jsDedup_append_singleton]
    by_cases h : a ∈ jsDedup t
    · simpa [h] using ih
    · simp [List.nodup_append, h, ih]

theorem cnt_append_singleton {α : Type} [DecidableEq α] (y a : α) (l : List α) :
    cnt y (l ++ [a]) = cnt y l + if a = y then 1 else 0 := by
  by_cases h : a = y <;> simp [cnt, List.filter_append, h]

theorem cnt_eq_zero {α : Type} [DecidableEq α] (x : α) (l : List α) (h : x ∉ l) :
    cnt x l = 0 := by
  simp only [cnt, List.length_eq_zero, List.filter_eq_nil_iff]
  intro b hb
  simp only [decide_eq_true_eq]
  rintro rfl
  exact h hb

theorem sum_ind_eq_zero {α : Type} [DecidableEq α] (x : α) (l : List α) (h : x ∉ l) :
    (l.map (fun a => if x = a then (1 : Nat) else 0)).sum = 0 := by
  induction l with
  | nil => rfl
  | cons b t ih =>
    have hb : x ≠ b := by rintro rfl; exact h (List.mem_cons_self _ _)
    have ht : x ∉ t := fun hm => h (List.mem_cons_of_mem _ hm)
    simp only [List.map_cons, List.sum_cons, if_neg hb, ih ht]

theorem sum_ind_eq_one {α : Type} [DecidableEq α] (x : α) (l : List α)
    (hn : l.Nodup) (h : x ∈ l) :
    (l.map (fun a => if x = a then (1 : Nat) else 0)).sum = 1 := by
  induction l with
  | nil => cases h
  | cons b t ih =>
    rcases List.mem_cons.mp h with rfl | hx
    · simp only [List.map_cons, List.sum_cons, if_pos rfl]
      rw [sum_ind_eq_zero x t (List.nodup_cons.mp hn).1]
      simp
    · have hb : x ≠ b := by rintro rfl; exact (List.nodup_cons.mp hn).1 hx
      simp only [List.map_cons, List.sum_cons, if_neg hb]
      rw [ih (List.nodup_cons.mp hn).2 hx]

theorem sum_map_add {α M : Type} [AddCommMonoid M] (l : List α) (f g : α → M) :
    (l.map (fun a => f a + g a)).sum = (l.map f).sum + (l.map g).sum := by
  induction l with
  | nil => simp
  | cons a t ih =>
    simp only [List.map_cons, List.sum_cons, ih]
    exact add_add_add_comm _ _ _ _

theorem sum_cnt_jsDedup {α : Type} [DecidableEq α] (l : List α) :
    ((jsDedup l).map (fun a => cnt a l)).sum = l.length := by
  induction l using List.reverseRecOn with
  | nil => rfl
  | append_singleton t x ih =>
    rw [jsDedup_append_singleton]
    by_cases h : x ∈ jsDedup t
    · rw [if_pos h]
      have hmap : (jsDedup t).map (fun a => cnt a (t ++ [x]))
          = (jsDedup t).map (fun a => cnt a t + if x = a then 1 else 0) :=
        List.map_congr_left (fun a _ => cnt_append_singleton a x t)
      rw [hmap, sum_map_add, ih, sum_ind_eq_one x (jsDedup t) (nodup_jsDedup t) h]
      simp
    · rw [if_neg h]
      have hx : x ∉ t := fun hm => h ((mem_jsDedup t x).mpr hm)
      rw [List.map_append, List.sum_append]
      have hone : cnt x (t ++ [x]) = 1 := by
        rw [cnt_append_singleton, cnt_eq_zero x t hx, if_pos rfl]
      have hmap : (jsDedup t).map (fun a => cnt a (t ++ [x]))
          = (jsDedup t).map (fun a => cnt a t) := by
        apply List.map_congr_left
        intro a ha
        rw [cnt_append_singleton]
        have hne : x ≠ a := fun e => h (e ▸ ha)
        simp [hne]
      rw [hmap, ih]
      simp [hone]

theorem jsRound1_close (x : ℚ) : |jsRound1 x - x| ≤ 1 / 20 := by
  have h1 : ((⌊10 * x + 1 / 2⌋ : Int) : ℚ) ≤ 10 * x + 1 / 2 := Int.floor_le _
  have h2 : 10 * x + 1 / 2 < ((⌊10 * x + 1 / 2⌋ : Int) : ℚ) + 1 := Int.lt_floor_add_one _
  rw [jsRound1, abs_le]
  constructor
  · linarith
  · linarith

theorem sum_map_round_close {α : Type} (l : List α) (f : α → ℚ) :
    |(l.map (fun a => jsRound1 (f a))).sum - (l.map f).sum| ≤ (l.length : ℚ) / 20 := by
  induction l with
  | nil => simp
  | cons a t ih =>
    simp only [List.map_cons, List.sum_cons, List.length_cons]
    have hsplit : jsRound1 (f a) + (t.map (fun a => jsRound1 (f a))).sum
        - (f a + (t.map f).sum)
        = (jsRound1 (f a) - f a)
          + ((t.map (fun a => jsRound1 (f a))).sum - (t.map f).sum) := by ring
    rw [hsplit]
    calc |(jsRound1 (f a) - f a)
            + ((t.map (fun a => jsRound1 (f a))).sum - (t.map f).sum)|
        ≤ |jsRound1 (f a) - f a|
            + |(t.map (fun a => jsRound1 (f a))).sum - (t.map f).sum| := abs_add _ _
      _ ≤ 1 / 20 + (t.length : ℚ) / 20 := add_le_add (jsRound1_close (f a)) ih
      _ = ((t.length + 1 : Nat) : ℚ) / 20 := by push_cast; ring

theorem sum_map_cast_mul {α : Type} (l : List α) (g : α → Nat) (c : ℚ) :
    (l.map (fun a => (g a : ℚ) * c)).sum = (((l.map g).sum : Nat) : ℚ) * c := by
  induction l with
  | nil => simp
  | cons a t ih =>
    simp only [List.map_cons, List.sum_cons, ih]
    push_cast
    ring

/-! Claim theorems. -/

/-- C1 (counterexample): the claim that totalScore is never taken from a
source column fails as stated: for the single row binding only
totalScore to the string "99", the produced record has politicalRights
and civilLiberties both 0, yet its totalScore is the raw string "99",
not the recomputed sum 0. -/
theorem C1_counterexample :
    (transformData 0 [[("totalScore", jstr "99")]]).map
        (fun r => (r.totalScore, r.politicalRights, r.civilLiberties))
      = [(jstr "99", jnum 0, jnum 0)] ∧
    jstr "99" ≠ jnum (0 + 0) := by decide

/-- C1 (amended): totalScore equals politicalRights plus civilLiberties,
always recomputed, and every canonical field holds its resolved or
fallback value — provided the source row contains none of the seven
canonical field names as literal column names; the trailing spread of the
raw row re-overwrites any canonical field whose exact name occurs as a
source column. -/
theorem C1_amended (cy : Int) (i : Nat) (row : RawRow)
    (hco : rowGet row "country" = none)
    (hre : rowGet row "region" = none)
    (hye : rowGet row "year" = none)
    (hst : rowGet row "status" = none)
    (hpr : rowGet row "politicalRights" = none)
    (hcl : rowGet row "civilLiberties" = none)
    (hts : rowGet row "totalScore" = none) :
    (transformRow cy i row).totalScore = jnum (prOf row + clOf row) ∧
    (transformRow cy i row).politicalRights = jnum (prOf row) ∧
    (transformRow cy i row).civilLiberties = jnum (clOf row) ∧
    (transformRow cy i row).country = countryOf i row ∧
    (transformRow cy i row).region = regionOf row ∧
    (transformRow cy i row).year = jnum (yearOf cy row) ∧
    (transformRow cy i row).status = statusOf row := by
  refine ⟨?_, ?_, ?_, ?_, ?_, ?_, ?_⟩ <;>
    simp [transformRow, ovr, hco, hre, hye, hst, hpr, hcl, hts]

/-- C1 (witness): the amended theorem applied to the empty row. -/
theorem C1_witness :
    (transformRow 0 0 []).totalScore = jnum (prOf [] + clOf []) ∧
    (transformRow 0 0 []).politicalRights = jnum (prOf []) ∧
    (transformRow 0 0 []).civilLiberties = jnum (clOf []) ∧
    (transformRow 0 0 []).country = countryOf 0 [] ∧
    (transformRow 0 0 []).region = regionOf [] ∧
    (transformRow 0 0 []).year = jnum (yearOf 0 []) ∧
    (transformRow 0 0 []).status = statusOf [] :=
  C1_amended 0 0 [] rfl rfl rfl rfl rfl rfl rfl

/-- C2 (counterexample): the synthetic placeholder is "Pays " followed by
the index, not "Country "; and a row whose country column is present but
empty keeps the raw empty string through the trailing spread instead of
the placeholder. -/
theorem C2_counterexample :
    (transformData 0 [[], [("country", jstr "")]]).map (fun r => r.country)
      = [jstr "Pays 0", jstr ""] ∧
    jstr "Pays 0" ≠ jstr "Country 0" ∧
    jstr "" ≠ jstr "Country 1" := by decide

/-- C2 (amended): when neither Pays nor Country is present with a truthy
value and no column literally named country exists in the row, the
record's country is the placeholder "Pays " followed by the row index. -/
theorem C2_amended (cy : Int) (i : Nat) (row : RawRow)
    (hp : presentTruthy row "Pays" = false)
    (hc : presentTruthy row "Country" = false)
    (hl : rowGet row "country" = none) :
    (transformRow cy i row).country = jstr ("Pays " ++ toString i) := by
  have h1 : (transformRow cy i row).country = countryOf i row := by
    simp [transformRow, ovr, hl]
  rw [h1]
  unfold countryOf
  rcases e1 : rowGet row "Pays" with _ | v1
  · rcases e2 : rowGet row "Country" with _ | v2
    · rw [hl]
      rfl
    · have hv2 : truthy v2 = false := by
        unfold presentTruthy at hc
        rw [e2] at hc
        exact hc
      rw [hl]
      simp [chain, hv2]
  · have hv1 : truthy v1 = false := by
      unfold presentTruthy at hp
      rw [e1] at hp
      exact hp
    rcases e2 : rowGet row "Country" with _ | v2
    · rw [hl]
      simp [chain, hv1]
    · have hv2 : truthy v2 = false := by
        unfold presentTruthy at hc
        rw [e2] at hc
        exact hc
      rw [hl]
      simp [chain, hv1, hv2]

/-- C2 (witness): the amended theorem applied to the empty row at index 3. -/
theorem C2_witness :
    (transformRow 0 3 []).country = jstr ("Pays " ++ toString 3) :=
  C2_amended 0 3 [] rfl rfl rfl

/-- C6 (counterexample): when the failing numeric cell sits under the
literal column name year, the fallback does not survive into the record:
the trailing spread restores the unparsable raw string. -/
theorem C6_counterexample :
    (transformData 2025 [[("year", jstr "abc")]]).map (fun r => r.year)
      = [jstr "abc"] ∧
    jstr "abc" ≠ jnum 2025 := by decide

/-- C6 (amended): normalization is total, yields one record per input
row in input order, and a failed integer parse of year, politicalRights
or civilLiberties is replaced by its fallback (current year, 0, 0) in
the record — provided the row has no source column literally named
year, politicalRights or civilLiberties for the trailing spread to
re-apply. -/
theorem C6_amended (cy : Int) (rows : List RawRow) (i : Nat) (row : RawRow)
    (hy : rowGet row "year" = none)
    (hp : rowGet row "politicalRights" = none)
    (hc : rowGet row "civilLiberties" = none) :
    transformData cy rows = rows.enum.map (fun p => transformRow cy p.1 p.2) ∧
    (transformData cy rows).length = rows.length ∧
    (parseIntJS (yearRawOf cy row) = none → (transformRow cy i row).year = jnum cy) ∧
    (parseIntJS (prRawOf row) = none →
      (transformRow cy i row).politicalRights = jnum 0) ∧
    (parseIntJS (clRawOf row) = none →
      (transformRow cy i row).civilLiberties = jnum 0) := by
  refine ⟨rfl, ?_, ?_, ?_, ?_⟩
  · simp [transformData]
  · intro hparse
    simp [transformRow, ovr, hy, yearOf, hparse]
  · intro hparse
    simp [transformRow, ovr, hp, prOf, hparse]
  · intro hparse
    simp [transformRow, ovr, hc, clOf, hparse]

/-- C6 (witness): the amended theorem applied to a row whose Année cell
is the unparsable string "zz": one record results and its year is the
supplied current year 2025. -/
theorem C6_witness :
    (transformData 2025 [[("Année", jstr "zz")]]).length = 1 ∧
    (transformRow 2025 0 [("Année", jstr "zz")]).year = jnum 2025 := by
  have h := C6_amended 2025 [[("Année", jstr "zz")]] 0 [("Année", jstr "zz")]
    rfl rfl rfl
  exact ⟨h.2.1, h.2.2.1 (by decide)⟩

/-- C7: on the empty collection every aggregation takes its explicit
no-data short circuit: the headline stats are none and the status, region
and yearly series are all empty, so no per-entry division is reached. -/
theorem C7_empty_aggregations :
    stats ([] : List FreedomData) = none ∧
    statusDistribution [] = [] ∧
    regionDistribution [] = [] ∧
    yearlyTrends [] = [] :=
  ⟨rfl, rfl, rfl, rfl⟩

/-- C9: normalizing the single Utopia scenario row yields exactly one
record with country Utopia, year 2020, politicalRights 7, civilLiberties
6, totalScore 13 and the unspecified status sentinel, whatever the
ambient current year. -/
theorem C9_scenario (cy : Int) :
    (transformData cy [rowUtopia]).map
        (fun r => (r.country, r.year, r.politicalRights, r.civilLiberties,
          r.totalScore, r.status))
      = [(jstr "Utopia", jnum 2020, jnum 7, jnum 6, jnum 13,
          jstr "Non spécifié")] := rfl

/-- C10: the table's sorting is pure — with no sort column the output is
the input sequence itself, and for every column and direction the output
is a permutation of the input (the input collection itself is never
mutated, only a sorted copy is produced). -/
theorem C10_sortedData_perm (col : Option SortCol) (dir : SortDir)
    (data : List FreedomData) :
    (sortedData col dir data).Perm data ∧ sortedData none dir data = data := by
  constructor
  · cases col with
    | none => exact List.Perm.refl _
    | some c => exact insertionSortBy_perm _ _
  · rfl

/-! Counting lemmas for the headline status buckets. -/

theorem cnt_cons {α : Type} [DecidableEq α] (y x : α) (t : List α) :
    cnt y (x :: t) = cnt y t + if x = y then 1 else 0 := by
  by_cases h : x = y <;> simp [cnt, List.filter_cons, h]

theorem cnt_three {α : Type} [DecidableEq α] (a b c : α)
    (hab : a ≠ b) (hac : a ≠ c) (hbc : b ≠ c) (l : List α) :
    cnt a l + cnt b l + cnt c l ≤ l.length ∧
      (cnt a l + cnt b l + cnt c l = l.length ↔ ∀ x ∈ l, x = a ∨ x = b ∨ x = c) := by
  induction l with
  | nil => simp [cnt]
  | cons x t ih =>
    rw [cnt_cons, cnt_cons, cnt_cons, List.length_cons]
    have hI : ((if x = a then 1 else 0) + (if x = b then 1 else 0)
        + (if x = c then 1 else 0) : Nat) ≤ 1 := by
      by_cases h1 : x = a
      · subst h1; simp [hab, hac]
      · by_cases h2 : x = b
        · subst h2; simp [h1, hbc]
        · by_cases h3 : x = c <;> simp [h1, h2, h3, Ne.symm hac, Ne.symm hbc]
    have hIiff : ((if x = a then 1 else 0) + (if x = b then 1 else 0)
        + (if x = c then 1 else 0) : Nat) = 1 ↔ (x = a ∨ x = b ∨ x = c) := by
      by_cases h1 : x = a
      · subst h1; simp [hab, hac]
      · by_cases h2 : x = b
        · subst h2; simp [h1, hbc]
        · by_cases h3 : x = c <;> simp [h1, h2, h3, Ne.symm hac, Ne.symm hbc]
    constructor
    · have := ih.1
      omega
    · rw [List.forall_mem_cons, ← hIiff, ← ih.2]
      have h1 := ih.1
      omega

theorem freeCountries_eq_cnt (data : List FreedomData) :
    freeCountries data = cnt "Libre" (data.map (·.status)) := by
  simp only [freeCountries, cnt, List.filter_map, List.length_map]
  rfl

theorem partiallyFreeCountries_eq_cnt (data : List FreedomData) :
    partiallyFreeCountries data = cnt "Partiellement libre" (data.map (·.status)) := by
  simp only [partiallyFreeCountries, cnt, List.filter_map, List.length_map]
  rfl

theorem notFreeCountries_eq_cnt (data : List FreedomData) :
    notFreeCountries data = cnt "Pas libre" (data.map (·.status)) := by
  simp only [notFreeCountries, cnt, List.filter_map, List.length_map]
  rfl

theorem headlineCounts (data : List FreedomData) :
    freeCountries data + partiallyFreeCountries data + notFreeCountries data
        ≤ data.length ∧
      (freeCountries data + partiallyFreeCountries data + notFreeCountries data
          = data.length ↔ ∀ d ∈ data, isCanonical d = true) := by
  have h := cnt_three "Libre" "Partiellement libre" "Pas libre"
    (by decide) (by decide) (by decide) (data.map (·.status))
  rw [List.length_map] at h
  rw [freeCountries_eq_cnt, partiallyFreeCountries_eq_cnt, notFreeCountries_eq_cnt]
  refine ⟨h.1, ?_⟩
  rw [h.2, List.forall_mem_map]
  constructor
  · intro hall d hd
    simp only [isCanonical, Bool.or_eq_true, decide_eq_true_eq]
    rcases hall d hd with h1 | h1 | h1
    · exact Or.inl (Or.inl h1)
    · exact Or.inl (Or.inr h1)
    · exact Or.inr h1
  · intro hall d hd
    have := hall d hd
    simp only [isCanonical, Bool.or_eq_true, decide_eq_true_eq] at this
    rcases this with (h1 | h1) | h1
    · exact Or.inl h1
    · exact Or.inr (Or.inl h1)
    · exact Or.inr (Or.inr h1)

/-- C4 (counterexample): the displayed headline percentages are rounded
to one decimal before being shown, and for seven records split 2/2/3
over the three canonical labels they are 28.6, 28.6 and 42.9, summing to
100.1 — strictly above 100.0 even though every record's status is one of
the three canonical labels. -/
theorem C4_counterexample :
    freePercentage dHeadline + partiallyFreePercentage dHeadline
        + notFreePercentage dHeadline = 1001 / 10 ∧
    ¬(freePercentage dHeadline + partiallyFreePercentage dHeadline
        + notFreePercentage dHeadline ≤ 100) ∧
    dHeadline.all isCanonical = true := by
  have hf : freeCountries dHeadline = 2 := by decide
  have hp : partiallyFreeCountries dHeadline = 2 := by decide
  have hn : notFreeCountries dHeadline = 3 := by decide
  have hl : dHeadline.length = 7 := by decide
  have key : freePercentage dHeadline + partiallyFreePercentage dHeadline
      + notFreePercentage dHeadline = 1001 / 10 := by
    simp only [freePercentage, partiallyFreePercentage, notFreePercentage,
      freePercentageExact, partiallyFreePercentageExact, notFreePercentageExact,
      hf, hp, hn, hl]
    norm_num [jsRound1]
  refine ⟨key, ?_, by decide⟩
  rw [key]
  norm_num

/-- C4 (amended): the three headline buckets are exact string matches
against the three canonical labels, and the exact percentages — the
values count divided by total times 100 before the one-decimal display
rounding — sum to at most 100, with equality exactly when every record's
status is one of the three canonical labels; the displayed rounded
percentages can exceed 100.0 by up to 0.15. -/
theorem C4_amended (data : List FreedomData) (h : data ≠ []) :
    freePercentageExact data + partiallyFreePercentageExact data
        + notFreePercentageExact data ≤ 100 ∧
      (freePercentageExact data + partiallyFreePercentageExact data
          + notFreePercentageExact data = 100 ↔ data.all isCanonical = true) := by
  have hn : 0 < data.length := List.length_pos.mpr h
  have hq : (0 : ℚ) < (data.length : ℚ) := by exact_mod_cast hn
  have hsum : freePercentageExact data + partiallyFreePercentageExact data
      + notFreePercentageExact data
      = ((freeCountries data + partiallyFreeCountries data
          + notFreeCountries data : Nat) : ℚ) / (data.length : ℚ) * 100 := by
    unfold freePercentageExact partiallyFreePercentageExact notFreePercentageExact
    push_cast
    ring
  have hc := headlineCounts data
  rw [hsum]
  constructor
  · rw [div_mul_eq_mul_div, div_le_iff₀ hq]
    have hle : ((freeCountries data + partiallyFreeCountries data
        + notFreeCountries data : Nat) : ℚ) ≤ (data.length : ℚ) := by
      exact_mod_cast hc.1
    nlinarith
  · rw [div_mul_eq_mul_div, div_eq_iff (ne_of_gt hq)]
    constructor
    · intro he
      have hcast : ((freeCountries data + partiallyFreeCountries data
          + notFreeCountries data : Nat) : ℚ) = (data.length : ℚ) := by linarith
      have hSn : freeCountries data + partiallyFreeCountries data
          + notFreeCountries data = data.length := by exact_mod_cast hcast
      rw [List.all_eq_true]
      exact hc.2.mp hSn
    · intro ha
      rw [List.all_eq_true] at ha
      have hSn : freeCountries data + partiallyFreeCountries data
          + notFreeCountries data = data.length := hc.2.mpr ha
      rw [hSn]
      ring

/-- C4 (witness): the amended theorem applied to a single all-free
record: the exact percentages are 100 + 0 + 0. -/
theorem C4_witness :
    freePercentageExact [(⟨"A", "R", 2020, "Libre", 1, 1, 2⟩ : FreedomData)]
        + partiallyFreePercentageExact [⟨"A", "R", 2020, "Libre", 1, 1, 2⟩]
        + notFreePercentageExact [⟨"A", "R", 2020, "Libre", 1, 1, 2⟩] ≤ 100 ∧
      (freePercentageExact [(⟨"A", "R", 2020, "Libre", 1, 1, 2⟩ : FreedomData)]
          + partiallyFreePercentageExact [⟨"A", "R", 2020, "Libre", 1, 1, 2⟩]
          + notFreePercentageExact [⟨"A", "R", 2020, "Libre", 1, 1, 2⟩] = 100 ↔
        List.all [(⟨"A", "R", 2020, "Libre", 1, 1, 2⟩ : FreedomData)] isCanonical = true) :=
  C4_amended [⟨"A", "R", 2020, "Libre", 1, 1, 2⟩] (by decide)

/-- C8 (counterexample): for sixteen records over five distinct statuses
split 1/1/1/1/12, the five displayed percentages are 6.3 four times and
75.0, summing to 100.2 — off from 100.0 by 0.2, beyond the claimed 0.1
tolerance. -/
theorem C8_counterexample :
    ((statusDistribution dStatus).map (fun e => e.percentage)).sum = 501 / 5 ∧
    ¬(|((statusDistribution dStatus).map (fun e => e.percentage)).sum - 100|
        ≤ 1 / 10) := by
  have hd : jsDedup (dStatus.map (·.status)) = ["SA", "SB", "SC", "SD", "SE"] := by
    decide
  have h1 : cnt "SA" (dStatus.map (·.status)) = 1 := by decide
  have h2 : cnt "SB" (dStatus.map (·.status)) = 1 := by decide
  have h3 : cnt "SC" (dStatus.map (·.status)) = 1 := by decide
  have h4 : cnt "SD" (dStatus.map (·.status)) = 1 := by decide
  have h5 : cnt "SE" (dStatus.map (·.status)) = 12 := by decide
  have hl : dStatus.length = 16 := by decide
  have key : ((statusDistribution dStatus).map (fun e => e.percentage)).sum = 501 / 5 := by
    simp only [statusDistribution, hd, List.map_cons, List.map_nil, List.sum_cons,
      List.sum_nil, h1, h2, h3, h4, h5, hl]
    norm_num [jsRound1]
  refine ⟨key, ?_⟩
  rw [key]
  rw [show (501 : ℚ) / 5 - 100 = 1 / 5 by norm_num]
  rw [abs_of_pos (by norm_num)]
  norm_num

/-- C8 (amended): the status distribution lists every distinct status
exactly once (its name column is precisely the deduplicated status list,
without duplicates), and the displayed one-decimal percentages sum to
100 within 0.05 per distinct status — a bound of one twentieth times the
number of entries, rather than a flat 0.1. -/
theorem C8_amended (data : List FreedomData) (h : data ≠ []) :
    (statusDistribution data).map (fun e => e.name)
        = jsDedup (data.map (·.status)) ∧
      ((statusDistribution data).map (fun e => e.name)).Nodup ∧
      |((statusDistribution data).map (fun e => e.percentage)).sum - 100|
        ≤ ((statusDistribution data).length : ℚ) / 20 := by
  have hname : (statusDistribution data).map (fun e => e.name)
      = jsDedup (data.map (·.status)) := by
    simp only [statusDistribution, List.map_map]
    conv_rhs => rw [← List.map_id (jsDedup (data.map (·.status)))]
    apply List.map_congr_left
    intro s _
    rfl
  refine ⟨hname, by rw [hname]; exact nodup_jsDedup _, ?_⟩
  have hlen : (statusDistribution data).length
      = (jsDedup (data.map (·.status))).length := by
    simp only [statusDistribution, List.length_map]
  have hpct : (statusDistribution data).map (fun e => e.percentage)
      = (jsDedup (data.map (·.status))).map
          (fun s => jsRound1
            ((cnt s (data.map (·.status)) : ℚ) / (data.length : ℚ) * 100)) := by
    simp only [statusDistribution, List.map_map]
    apply List.map_congr_left
    intro s _
    rfl
  rw [hpct, hlen]
  have hn0 : (data.length : ℚ) ≠ 0 := by
    have hp : 0 < data.length := List.length_pos.mpr h
    exact_mod_cast Nat.pos_iff_ne_zero.mp hp
  have hexact : ((jsDedup (data.map (·.status))).map
      (fun s => (cnt s (data.map (·.status)) : ℚ) / (data.length : ℚ) * 100)).sum
      = 100 := by
    have hform : ((jsDedup (data.map (·.status))).map
        (fun s => (cnt s (data.map (·.status)) : ℚ) / (data.length : ℚ) * 100))
        = ((jsDedup (data.map (·.status))).map
          (fun s => (cnt s (data.map (·.status)) : ℚ)
            * (100 / (data.length : ℚ)))) := by
      apply List.map_congr_left
      intro s _
      ring
    rw [hform, sum_map_cast_mul, sum_cnt_jsDedup, List.length_map]
    field_simp
  have hb := sum_map_round_close (jsDedup (data.map (·.status)))
    (fun s => (cnt s (data.map (·.status)) : ℚ) / (data.length : ℚ) * 100)
  rw [hexact] at hb
  exact hb

/-- C8 (witness): the amended theorem applied to the one-record
collection of non-canonical status: a single entry at 100.0 percent. -/
theorem C8_witness :
    (statusDistribution dOther).map (fun e => e.name)
        = jsDedup (dOther.map (·.status)) ∧
      ((statusDistribution dOther).map (fun e => e.name)).Nodup ∧
      |((statusDistribution dOther).map (fun e => e.percentage)).sum - 100|
        ≤ ((statusDistribution dOther).length : ℚ) / 20 :=
  C8_amended dOther (by decide)

/-- C3 (counterexample): the year list is sorted on decimal strings, not
numerically, so for years 9 and 10 the trend comparison runs backwards:
the numerically latest year 10 averages 10 against 0 for year 9 — more
than 0.5 above it — yet the classification is "declining", not
"improving". -/
theorem C3_counterexample :
    trend dTrend = "declining" ∧
    jsYears dTrend = [10, 9] ∧
    yearScoreAvg 9 dTrend + 1 / 2 < yearScoreAvg 10 dTrend := by
  have hys : jsYears dTrend = [10, 9] := by decide
  have h9 : yearScoreAvg 9 dTrend = 0 := by simp [yearScoreAvg, dTrend]
  have h10 : yearScoreAvg 10 dTrend = 10 := by simp [yearScoreAvg, dTrend]
  refine ⟨?_, hys, ?_⟩
  · simp only [trend, hys]
    norm_num [h9, h10]
  · rw [h9, h10]
    norm_num

/-- C3 (amended): with fewer than two distinct years the trend is
"stable"; otherwise the classification compares the average totalScore of
the last against the first element of the distinct years sorted by their
decimal strings (the string order coincides with ascending numeric order
exactly when all years have equally long non-negative decimal forms, as
four-digit calendar years do): "improving" exactly when the last exceeds
the first by more than 0.5, "declining" exactly when it is more than 0.5
below it, "stable" otherwise. -/
theorem C3_amended (data : List FreedomData) :
    ((jsDedup (data.map (·.year))).length ≤ 1 → trend data = "stable") ∧
    (trend data = "improving" ↔ 1 < (jsYears data).length ∧
      yearScoreAvg ((jsYears data).headD 0) data + 1 / 2
        < yearScoreAvg ((jsYears data).getLastD 0) data) ∧
    (trend data = "declining" ↔ 1 < (jsYears data).length ∧
      yearScoreAvg ((jsYears data).getLastD 0) data
        < yearScoreAvg ((jsYears data).headD 0) data - 1 / 2) ∧
    (trend data = "stable" ↔
      ¬(1 < (jsYears data).length ∧
        yearScoreAvg ((jsYears data).headD 0) data + 1 / 2
          < yearScoreAvg ((jsYears data).getLastD 0) data) ∧
      ¬(1 < (jsYears data).length ∧
        yearScoreAvg ((jsYears data).getLastD 0) data
          < yearScoreAvg ((jsYears data).headD 0) data - 1 / 2)) := by
  have hlen : (jsYears data).length = (jsDedup (data.map (·.year))).length :=
    insertionSortBy_length _ _
  by_cases hl : (jsYears data).length ≤ 1
  · have ht : trend data = "stable" := by
      unfold trend
      simp [hl]
    refine ⟨fun _ => ht, ?_, ?_, ?_⟩
    · rw [ht]
      constructor
      · intro he
        exact absurd he (by decide)
      · rintro ⟨h1, _⟩
        omega
    · rw [ht]
      constructor
      · intro he
        exact absurd he (by decide)
      · rintro ⟨h1, _⟩
        omega
    · rw [ht]
      constructor
      · intro _
        constructor
        · rintro ⟨h1, _⟩
          omega
        · rintro ⟨h1, _⟩
          omega
      · intro _
        rfl
  · have h1 : 1 < (jsYears data).length := by omega
    have ht : trend data
        = (if yearScoreAvg ((jsYears data).headD 0) data + 1 / 2
              < yearScoreAvg ((jsYears data).getLastD 0) data then "improving"
           else if yearScoreAvg ((jsYears data).getLastD 0) data
              < yearScoreAvg ((jsYears data).headD 0) data - 1 / 2 then "declining"
           else "stable") := by
      unfold trend
      simp [hl]
    rw [ht]
    refine ⟨fun hcon => absurd hcon (by omega), ?_, ?_, ?_⟩
    · by_cases hA : yearScoreAvg ((jsYears data).headD 0) data + 1 / 2
          < yearScoreAvg ((jsYears data).getLastD 0) data
      · simp only [if_pos hA]
        exact ⟨fun _ => ⟨h1, hA⟩, fun _ => by trivial⟩
      · simp only [if_neg hA]
        constructor
        · intro he
          split at he
          · exact absurd he (by decide)
          · exact absurd he (by decide)
        · rintro ⟨_, hA2⟩
          exact absurd hA2 hA
    · by_cases hA : yearScoreAvg ((jsYears data).headD 0) data + 1 / 2
          < yearScoreAvg ((jsYears data).getLastD 0) data
      · simp only [if_pos hA]
        constructor
        · intro he
          exact absurd he (by decide)
        · rintro ⟨_, hB⟩
          exact absurd hB (by linarith)
      · simp only [if_neg hA]
        by_cases hB : yearScoreAvg ((jsYears data).getLastD 0) data
            < yearScoreAvg ((jsYears data).headD 0) data - 1 / 2
        · simp only [if_pos hB]
          exact ⟨fun _ => ⟨h1, hB⟩, fun _ => by trivial⟩
        · simp only [if_neg hB]
          constructor
          · intro he
            exact absurd he (by decide)
          · rintro ⟨_, hB2⟩
            exact absurd hB2 hB
    · by_cases hA : yearScoreAvg ((jsYears data).headD 0) data + 1 / 2
          < yearScoreAvg ((jsYears data).getLastD 0) data
      · simp only [if_pos hA]
        constructor
        · intro he
          exact absurd he (by decide)
        · rintro ⟨hno, _⟩
          exact absurd ⟨h1, hA⟩ hno
      · simp only [if_neg hA]
        by_cases hB : yearScoreAvg ((jsYears data).getLastD 0) data
            < yearScoreAvg ((jsYears data).headD 0) data - 1 / 2
        · simp only [if_pos hB]
          constructor
          · intro he
            exact absurd he (by decide)
          · rintro ⟨_, hno⟩
            exact absurd ⟨h1, hB⟩ hno
        · simp only [if_neg hB]
          constructor
          · intro _
            exact ⟨fun hc => absurd hc.2 hA, fun hc => absurd hc.2 hB⟩
          · intro _
            trivial

/-- C3 (witness): the amended theorem applied twice — a one-year
collection is "stable", and the two-year collection of the
counterexample data is classified "declining" by the characterization. -/
theorem C3_witness :
    trend [(⟨"A", "R", 2020, "Libre", 1, 1, 2⟩ : FreedomData)] = "stable" ∧
    trend dTrend = "declining" := by
  constructor
  · exact (C3_amended [⟨"A", "R", 2020, "Libre", 1, 1, 2⟩]).1 (by decide)
  · apply ((C3_amended dTrend).2.2.1).mpr
    have hys : jsYears dTrend = [10, 9] := by decide
    have h9 : yearScoreAvg 9 dTrend = 0 := by simp [yearScoreAvg, dTrend]
    have h10 : yearScoreAvg 10 dTrend = 10 := by simp [yearScoreAvg, dTrend]
    rw [hys]
    refine ⟨by decide, ?_⟩
    show yearScoreAvg 9 dTrend < yearScoreAvg 10 dTrend - 1 / 2
    rw [h9, h10]
    norm_num

/-! Lemmas characterizing the yearlyTrends reduce. -/

theorem yearFold_append (data : List FreedomData) (item : FreedomData) :
    yearFold (data ++ [item]) = yearStep (yearFold data) item := by
  simp [yearFold, List.foldl_append]

theorem bumpYear_year (item : FreedomData) (a : YearAcc) :
    (bumpYear item a).year = a.year := rfl

theorem yearAccOf_append (data : List FreedomData) (item : FreedomData) (y : Int) :
    yearAccOf (data ++ [item]) y
      = if item.year = y then bumpYear item (yearAccOf data y)
        else yearAccOf data y := by
  by_cases h : item.year = y
  · rw [if_pos h]
    simp [yearAccOf, bumpYear, List.filter_append, List.filter_cons, h,
      YearAcc.mk.injEq]
    refine ⟨?_, ?_, ?_⟩ <;> split_ifs <;> simp
  · rw [if_neg h]
    simp [yearAccOf, List.filter_append, List.filter_cons, h]

theorem yearAccOf_not_mem (data : List FreedomData) (y : Int)
    (h : y ∉ data.map (·.year)) :
    yearAccOf data y = initYear y := by
  have hf : data.filter (fun d => decide (d.year = y)) = [] := by
    rw [List.filter_eq_nil_iff]
    intro d hd
    simp only [decide_eq_true_eq]
    intro he
    exact h (List.mem_map.mpr ⟨d, hd, he⟩)
  simp [yearAccOf, hf, initYear]

theorem yearFold_keys (data : List FreedomData) :
    (yearFold data).map (fun a => a.year) = jsDedup (data.map (·.year)) := by
  induction data using List.reverseRecOn with
  | nil => rfl
  | append_singleton t item ih =>
    rw [yearFold_append]
    simp only [List.map_append, List.map_cons, List.map_nil]
    rw [jsDedup_append_singleton, ← ih]
    unfold yearStep
    by_cases h : (yearFold t).any (fun a => decide (a.year = item.year))
    · rw [if_pos h]
      have hmem : item.year ∈ (yearFold t).map (fun a => a.year) := by
        rcases List.any_eq_true.mp h with ⟨a, ha, hy⟩
        simp only [decide_eq_true_eq] at hy
        exact List.mem_map.mpr ⟨a, ha, hy⟩
      rw [if_pos hmem, List.map_map]
      apply List.map_congr_left
      intro a _
      by_cases hy : a.year = item.year <;> simp [hy, bumpYear]
    · rw [if_neg h]
      have hmem : item.year ∉ (yearFold t).map (fun a => a.year) := by
        intro hm
        rcases List.mem_map.mp hm with ⟨a, ha, hy⟩
        exact h (List.any_eq_true.mpr ⟨a, ha, by simp [hy]⟩)
      rw [if_neg hmem, List.map_append]
      rfl

theorem yearFold_values (data : List FreedomData) :
    ∀ a ∈ yearFold data, a = yearAccOf data a.year := by
  induction data using List.reverseRecOn with
  | nil =>
    intro a ha
    cases ha
  | append_singleton t item ih =>
    intro a ha
    rw [yearFold_append] at ha
    unfold yearStep at ha
    by_cases h : (yearFold t).any (fun x => decide (x.year = item.year))
    · rw [if_pos h] at ha
      rcases List.mem_map.mp ha with ⟨b, hb, hba⟩
      by_cases hy : b.year = item.year
      · rw [if_pos hy] at hba
        subst hba
        rw [yearAccOf_append, bumpYear_year]
        rw [if_pos hy.symm]
        rw [← ih b hb]
      · rw [if_neg hy] at hba
        subst hba
        rw [yearAccOf_append, if_neg (fun e => hy e.symm)]
        exact ih b hb
    · rw [if_neg h] at ha
      rcases List.mem_append.mp ha with hmem | hmem
      · have hne : ¬(a.year = item.year) := fun he =>
          h (List.any_eq_true.mpr ⟨a, hmem, by simp [he]⟩)
        rw [yearAccOf_append, if_neg (fun e => hne e.symm)]
        exact ih a hmem
      · simp only [List.mem_singleton] at hmem
        subst hmem
        show bumpYear item (initYear item.year)
          = yearAccOf (t ++ [item]) (bumpYear item (initYear item.year)).year
        rw [bumpYear_year]
        show bumpYear item (initYear item.year) = yearAccOf (t ++ [item]) item.year
        have hnot : item.year ∉ t.map (·.year) := by
          intro hm
          have hmm : item.year ∈ (yearFold t).map (fun a => a.year) := by
            rw [yearFold_keys, mem_jsDedup]
            exact hm
          rcases List.mem_map.mp hmm with ⟨b, hb, hby⟩
          exact h (List.any_eq_true.mpr ⟨b, hb, by simp [hby]⟩)
        rw [yearAccOf_append, if_pos rfl, yearAccOf_not_mem t item.year hnot]

theorem map_self_of_mem {α : Type} {l : List α} {f : α → α}
    (h : ∀ a ∈ l, f a = a) : l.map f = l := by
  induction l with
  | nil => rfl
  | cons a t ih =>
    rw [List.map_cons, h a (List.mem_cons_self _ _),
      ih (fun b hb => h b (List.mem_cons_of_mem _ hb))]

theorem yearFold_eq (data : List FreedomData) :
    yearFold data = (jsDedup (data.map (·.year))).map (yearAccOf data) := by
  have h1 : (yearFold data).map (fun a => yearAccOf data a.year) = yearFold data :=
    map_self_of_mem (fun a ha => (yearFold_values data a ha).symm)
  calc yearFold data
      = (yearFold data).map (fun a => yearAccOf data a.year) := h1.symm
    _ = ((yearFold data).map (fun a => a.year)).map (yearAccOf data) := by
        rw [List.map_map]
        rfl
    _ = (jsDedup (data.map (·.year))).map (yearAccOf data) := by
        rw [yearFold_keys]

theorem insertBy_map {α β : Type} (f : α → β) (le : β → β → Bool)
    (le' : α → α → Bool) (hco : ∀ a b, le (f a) (f b) = le' a b) (a : α)
    (l : List α) :
    insertBy le (f a) (l.map f) = (insertBy le' a l).map f := by
  induction l with
  | nil => rfl
  | cons b t ih =>
    simp only [List.map_cons, insertBy, hco a b]
    by_cases h : le' a b
    · rw [if_pos h, if_pos h]
      rfl
    · rw [if_neg h, if_neg h, List.map_cons, ih]

theorem insertionSortBy_map {α β : Type} (f : α → β) (le : β → β → Bool)
    (le' : α → α → Bool) (hco : ∀ a b, le (f a) (f b) = le' a b) (l : List α) :
    insertionSortBy le (l.map f) = (insertionSortBy le' l).map f := by
  induction l with
  | nil => rfl
  | cons a t ih =>
    simp only [List.map_cons, insertionSortBy, ih]
    exact insertBy_map f le le' hco a _

theorem statusFilter_partLibre (s : String) :
    decide (¬(s = "Libre") ∧ s = "Partiellement libre")
      = decide (s = "Partiellement libre") := by
  by_cases h : s = "Partiellement libre"
  · subst h
    decide
  · simp [h]

theorem finishYear_yearAccOf (data : List FreedomData) (y : Int) :
    finishYear (yearAccOf data y) = yearEntryOf data y := by
  unfold finishYear yearAccOf yearEntryOf
  simp only [YearEntry.mk.injEq]
  refine ⟨by trivial, by trivial, ?_, ?_, by trivial, ?_, by trivial⟩
  · rw [Int.cast_list_sum, List.map_map]
    rfl
  · rw [Int.cast_list_sum, List.map_map]
    rfl
  · exact congrArg List.length
      (List.filter_congr (fun d _ => statusFilter_partLibre d.status))

/-- C5 (counterexample): the yearly series has no separate bucket for
non-canonical statuses — a record whose status is neither "Libre" nor
"Partiellement libre" nor "Pas libre" is counted in the pasLibre (not
free) bucket — and the entry carries the one-decimal average of
politicalRights (here 2.0), not its sum (here 4). -/
theorem C5_counterexample :
    (yearlyTrends dYear).map
        (fun e => (e.totalCountries, e.libre, e.partLibre, e.pasLibre))
      = [(2, 1, 0, 1)] ∧
    (yearlyTrends dYear).map (fun e => e.avgPolitical) = [2] ∧
    ((2 : ℚ) ≠ 1 + 3) ∧
    dYear.all (fun d => decide (¬(d.status = "Pas libre"))) = true := by
  have hacc : yearFold dYear = [⟨2020, 2, 4, 6, 1, 0, 1⟩] := by decide
  have hyt : yearlyTrends dYear = [finishYear ⟨2020, 2, 4, 6, 1, 0, 1⟩] := by
    unfold yearlyTrends
    rw [hacc]
    rfl
  refine ⟨?_, ?_, by norm_num, by decide⟩
  · rw [hyt]
    rfl
  · rw [hyt]
    simp only [List.map_cons, List.map_nil, finishYear]
    norm_num [jsRound1]

/-- C5 (amended): the yearly trend series equals the pointwise
description: one entry per distinct year sorted ascending numerically,
each carrying the year's record count, the one-decimal averages of
politicalRights and civilLiberties (running sums are internal only and
replaced by the averages in the output), and three per-status counts —
Libre, Partiellement libre, and a final bucket counting every record
whose status is neither of those two, non-canonical statuses included. -/
theorem C5_amended (data : List FreedomData) :
    yearlyTrends data = specYearlySeries data := by
  unfold yearlyTrends specYearlySeries
  rw [yearFold_eq, List.map_map]
  rw [insertionSortBy_map (finishYear ∘ yearAccOf data)
    (fun a b => intLe a.year b.year) intLe (fun _ _ => rfl)]
  apply List.map_congr_left
  intro y _
  exact finishYear_yearAccOf data y
